import Mathlib

set_option maxRecDepth 16384

/-!
Verification of the Secure Path Gatekeeper and Database Backup/Restore
subsystem of the PBS_Admin desktop backend (src-tauri/src/lib.rs).

Paths are modelled as their lists of components (mirroring Rust `Path`
components); the filesystem and the OS profile lookups are modelled as
explicit parameters, so each Rust function becomes a pure Lean function of
the caller-supplied arguments plus a model of the environment it consults.
-/

namespace PBSAdmin

/-- A filesystem path, as its list of components (Rust `Path` components). -/
abbrev FPath := List String

/-- Render a path for inclusion in error messages (Rust `Display` of a path,
with `/` as separator). -/
def pathStr (p : FPath) : String := String.intercalate "/" p

/-- Model of the parts of the OS environment the Gatekeeper consults. -/
structure FsModel where
  /-- Rust `Path::canonicalize`: resolves `.`, `..` and symlinks to an
  absolute normalized form; `none` when the path does not exist. -/
  canonicalize : FPath → Option FPath
  /-- Rust `Path::exists`. -/
  pathExists : FPath → Bool
  /-- Rust `dirs::document_dir()`. -/
  docDir : Option FPath
  /-- Rust `std::env::temp_dir()`. -/
  tempDir : FPath

/-- Rust `Path::parent`: drop the final component; `none` for an empty path. -/
def parentOf (p : FPath) : Option FPath :=
  if p = [] then none else some p.dropLast

/-- Rust `Path::file_name`: the final component, or `none` when there is no
component or the path terminates in `..`. -/
def fileNameOf (p : FPath) : Option String :=
  match p.getLast? with
  | none => none
  | some c => if c = ".." then none else some c

/-- Embeds `get_pbs_admin_base_path`: `dirs::document_dir()` joined with
`PBS_Admin`, or an error when the Documents folder is unavailable. -/
def get_pbs_admin_base_path (fs : FsModel) : Except String FPath :=
  match fs.docDir with
  | some docs_path => .ok (docs_path ++ ["PBS_Admin"])
  | none => .error "Could not find Documents folder"

/-- The access-denied message of `validate_path_within_pbs_admin` (the Rust
code additionally wraps the offending path in single quotes). -/
def access_denied_msg (path : FPath) : String :=
  "Access denied: path " ++ pathStr path ++
    " is outside allowed directory. Files must be within Documents/PBS_Admin/"

/-- Embeds the first half of `validate_path_within_pbs_admin`: the
`match path_obj.canonicalize()` block that produces the candidate canonical
path, falling back to `canonical(parent) / file_name` when the path itself
does not exist yet. -/
def resolve_candidate (fs : FsModel) (path : FPath) : Except String FPath :=
  match fs.canonicalize path with
  | some p => .ok p
  | none =>
    match parentOf path with
    | some parent =>
      match fs.canonicalize parent with
      | none => .error ("Invalid path: parent directory does not exist: " ++ pathStr path)
      | some canonical_parent =>
        match fileNameOf path with
        | none => .error ("Invalid path: no file name: " ++ pathStr path)
        | some file_name => .ok (canonical_parent ++ [file_name])
    | none => .error ("Invalid path: " ++ pathStr path)

/-- Embeds `validate_path_within_pbs_admin`: canonicalize the candidate,
canonicalize the Documents/PBS_Admin base (falling back to its non-canonical
form when it does not exist), build the temp root `temp_dir/PBS_Admin`, and
accept the candidate exactly when one of the two is a component-wise prefix
of it (Rust `Path::starts_with`). -/
def validate_path_within_pbs_admin (fs : FsModel) (path : FPath) : Except String FPath :=
  match resolve_candidate fs path with
  | .error e => .error e
  | .ok canonical_path =>
    match get_pbs_admin_base_path fs with
    | .error e => .error e
    | .ok base_path =>
      let canonical_base := (fs.canonicalize base_path).getD base_path
      let temp_pbs := fs.tempDir ++ ["PBS_Admin"]
      if canonical_base.isPrefixOf canonical_path || temp_pbs.isPrefixOf canonical_path then
        .ok canonical_path
      else
        .error (access_denied_msg path)

/-- Embeds `validate_read_path`: the target must exist, then the shared
validation runs. -/
def validate_read_path (fs : FsModel) (path : FPath) : Except String FPath :=
  if fs.pathExists path = false then
    .error ("File does not exist: " ++ pathStr path)
  else
    validate_path_within_pbs_admin fs path

/-- Embeds `validate_write_path`: an alias for the shared validation. -/
def validate_write_path (fs : FsModel) (path : FPath) : Except String FPath :=
  validate_path_within_pbs_admin fs path

/-- Concrete model for the C1 witness: the only existing file is the sibling
directory entry `home/PBS_Admin2/f`, whose rendering starts with the string
rendering of the base `home/PBS_Admin` yet is not a component-wise
descendant of it. -/
def fsSibling : FsModel where
  canonicalize := fun p =>
    if p = ["home", "PBS_Admin2", "f"] then some ["home", "PBS_Admin2", "f"]
    else if p = ["home", "PBS_Admin"] then some ["home", "PBS_Admin"]
    else none
  pathExists := fun p => p = ["home", "PBS_Admin2", "f"]
  docDir := some ["home"]
  tempDir := ["tmp"]

/-- Concrete model for the C9 witness: `home/PBS_Admin/x` exists, is its own
canonical form, and lies under the (canonicalizable) base. -/
def fsIdem : FsModel where
  canonicalize := fun p =>
    if p = ["home", "PBS_Admin", "x"] then some ["home", "PBS_Admin", "x"]
    else if p = ["home", "PBS_Admin"] then some ["home", "PBS_Admin"]
    else none
  pathExists := fun p => p = ["home", "PBS_Admin", "x"]
  docDir := some ["home"]
  tempDir := ["tmp"]

/-- The containment step as claim C6 words it: the canonical form of every
member of the Permitted Root Set — the base and the temp scratch root — is
computed before the check, falling back to the non-canonical form only when
that root does not exist. Stated from the claim, to be compared with
`validate_path_within_pbs_admin` (which canonicalizes only the base). -/
def validate_spec_canonical_roots (fs : FsModel) (path : FPath) : Except String FPath :=
  match resolve_candidate fs path with
  | .error e => .error e
  | .ok canonical_path =>
    match get_pbs_admin_base_path fs with
    | .error e => .error e
    | .ok base_path =>
      let canonical_base := (fs.canonicalize base_path).getD base_path
      let temp_pbs := fs.tempDir ++ ["PBS_Admin"]
      let canonical_temp := (fs.canonicalize temp_pbs).getD temp_pbs
      if canonical_base.isPrefixOf canonical_path || canonical_temp.isPrefixOf canonical_path then
        .ok canonical_path
      else
        .error (access_denied_msg path)

/-- Concrete model for the C6 counterexample: the temp scratch root
`tmp/PBS_Admin` exists but is a symlink whose canonical form is
`realtmp/PBS_Admin`; the candidate file lives under that canonical form. -/
def fsTempLink : FsModel where
  canonicalize := fun p =>
    if p = ["tmp", "PBS_Admin"] then some ["realtmp", "PBS_Admin"]
    else if p = ["realtmp", "PBS_Admin", "f"] then some ["realtmp", "PBS_Admin", "f"]
    else none
  pathExists := fun p => p = ["realtmp", "PBS_Admin", "f"] || p = ["tmp", "PBS_Admin"]
  docDir := some ["docs"]
  tempDir := ["tmp"]

/-- File contents, as byte lists. -/
abbrev Content := List Nat

/-- A filesystem state: each path holds a content or is absent. -/
abbrev Fs := FPath → Option Content

/-- Point update of a filesystem state. -/
def fsUpdate (fs : Fs) (p : FPath) (c : Option Content) : Fs :=
  fun q => if q = p then c else fs q

/-- Split a character list on a separator character, keeping the groups
between occurrences in order (so a list with no separator yields one group). -/
def splitChar (sep : Char) : List Char → List (List Char)
  | [] => [[]]
  | c :: cs =>
    match splitChar sep cs with
    | [] => [[c]]
    | g :: gs => if c = sep then [] :: g :: gs else (c :: g) :: gs

/-- Rust `Path::extension` applied to a bare file name: the portion after
the last dot, or `none` when there is no embedded dot (a leading dot alone
does not start an extension). -/
def extOfName (name : String) : Option String :=
  match (splitChar '.' name.toList).map String.mk with
  | [] => none
  | [_] => none
  | "" :: [_] => none
  | parts => parts.getLast?

/-- Rust `Path::extension` on a component path. -/
def path_extension (p : FPath) : Option String :=
  (fileNameOf p).bind extOfName

/-- The live Database File location `docs/PBS_Admin/data/pbs_admin.db`. -/
def dbP (docs : FPath) : FPath := docs ++ ["PBS_Admin", "data", "pbs_admin.db"]

/-- The Safety Copy location: Rust `db_path.with_extension` replaces the
`db` extension of `pbs_admin.db` with `db.pre-restore-backup`. -/
def safetyP (docs : FPath) : FPath :=
  docs ++ ["PBS_Admin", "data", "pbs_admin.db.pre-restore-backup"]

/-- Rust `db_path.with_extension` at the one file name restore uses:
replace the final component's `db` extension with `db.pre-restore-backup`. -/
def with_pre_restore_ext (p : FPath) : FPath :=
  p.dropLast ++ ["pbs_admin.db.pre-restore-backup"]

/-- Embeds `get_database_path_internal`: the fixed sub-path of the Documents
root, failing when the Documents folder is unavailable or the file absent. -/
def get_database_path_internal (docsDir : Option FPath) (fs : Fs) : Except String FPath :=
  match docsDir with
  | some docs_path =>
    if fs (dbP docs_path) = none then
      .error ("Database not found at: " ++ pathStr (dbP docs_path))
    else .ok (dbP docs_path)
  | none => .error "Could not find Documents folder"

/-- Fault schedule for one `restore_database_backup` run: which of the three
fallible copies fail, the io error texts, and the content a failed copy
leaves at its destination (a failed copy may leave the destination partial,
unchanged or absent — the leave fields range over all of these). -/
structure RestoreFaults where
  safetyCopyFails : Bool
  safetyCopyErr : String
  safetyCopyLeaves : Option Content
  overwriteFails : Bool
  overwriteErr : String
  overwriteLeaves : Option Content
  rollbackFails : Bool
  rollbackLeaves : Option Content
  removeSafetyFails : Bool

/-- Content a successful `std::fs::copy(src, dst)` leaves at `dst`: the
destination is opened with truncation before the source is read, so copying
a file onto itself empties it; otherwise the destination receives the
source bytes. -/
def copyResult (fs : Fs) (src dst : FPath) : Option Content :=
  if src = dst then some [] else fs src

/-- Embeds `restore_database_backup`: validate the artifact (existence and
`db` extension — there is no aliasing check, so the database's own path is
accepted), locate the live database, copy it to the Safety Copy location
(abort on failure), copy the artifact over the database (deleting the
Safety Copy best-effort on success), and on failure copy the Safety Copy
back — the result of that rollback copy being discarded, the same error is
returned whether or not it succeeded. Successful copies follow
`copyResult`, which truncates the destination when source and destination
alias. Returns the caller-visible result and the final filesystem state. -/
def restore_database_backup (docsDir : Option FPath) (f : RestoreFaults) (fs : Fs)
    (backup_path : FPath) : Except String String × Fs :=
  if fs backup_path = none then
    (.error ("Backup file not found: " ++ pathStr backup_path), fs)
  else if path_extension backup_path ≠ some "db" then
    (.error "Invalid backup file: must be a .db file", fs)
  else
    match get_database_path_internal docsDir fs with
    | .error e => (.error e, fs)
    | .ok db_path =>
      let safety_backup := with_pre_restore_ext db_path
      if f.safetyCopyFails then
        (.error ("Failed to create safety backup: " ++ f.safetyCopyErr),
         fsUpdate fs safety_backup f.safetyCopyLeaves)
      else
        let fs1 := fsUpdate fs safety_backup (copyResult fs db_path safety_backup)
        if f.overwriteFails = false then
          let fs2 := fsUpdate fs1 db_path (copyResult fs1 backup_path db_path)
          let fs3 := if f.removeSafetyFails then fs2 else fsUpdate fs2 safety_backup none
          (.ok "Database restored successfully. Please restart the application.", fs3)
        else
          let fs2 := fsUpdate fs1 db_path f.overwriteLeaves
          let fs3 :=
            if f.rollbackFails = false then fsUpdate fs2 db_path (copyResult fs2 safety_backup db_path)
            else fsUpdate fs2 db_path f.rollbackLeaves
          (.error ("Failed to restore database: " ++ f.overwriteErr ++ ". Original database preserved."),
           fs3)

/-- Concrete filesystem for the restore witnesses and the C3 evaluation:
the database holds bytes 1,2,3 and one valid artifact holds bytes 9,9. -/
def docs0 : FPath := ["Users", "u", "Documents"]

/-- The artifact path used by the restore witnesses. -/
def bp0 : FPath := ["Users", "u", "Documents", "PBS_Admin", "Backups",
  "pbs-admin-backup-2024-01-01-000000.db"]

/-- Initial filesystem state for the restore witnesses. -/
def fs0 : Fs := fun p =>
  if p = dbP docs0 then some [1, 2, 3]
  else if p = bp0 then some [9, 9] else none

/-- Fault schedule in which the overwrite fails (leaving a truncated
database) and the rollback copy fails as well (leaving that same truncated
content in place). -/
def faultsBoth : RestoreFaults :=
  { safetyCopyFails := false, safetyCopyErr := "", safetyCopyLeaves := none
  , overwriteFails := true, overwriteErr := "disk full", overwriteLeaves := some [9]
  , rollbackFails := true, rollbackLeaves := some [9], removeSafetyFails := false }

/-- The same schedule except that the rollback copy succeeds. -/
def faultsRollbackOk : RestoreFaults :=
  { faultsBoth with rollbackFails := false }

/-- Fault schedule in which the very first step, the safety copy, fails. -/
def faultsSafetyFail : RestoreFaults :=
  { faultsBoth with safetyCopyFails := true, safetyCopyErr := "no space" }

/-- The fault-free schedule: every copy and the cleanup succeed. -/
def faultsNone : RestoreFaults :=
  { safetyCopyFails := false, safetyCopyErr := "", safetyCopyLeaves := none
  , overwriteFails := false, overwriteErr := "", overwriteLeaves := none
  , rollbackFails := false, rollbackLeaves := none, removeSafetyFails := false }

/-- Byte-wise (here char-wise, identical on the ASCII artifact names)
lexicographic less-or-equal, the order underlying Rust `str::cmp`. -/
def leChars : List Char → List Char → Bool
  | [], _ => true
  | _ :: _, [] => false
  | a :: as, b :: bs =>
    if a.toNat = b.toNat then leChars as bs else decide (a.toNat < b.toNat)

/-- Model of the comparison Rust `String::cmp` induces on strings. -/
def strLe (a b : String) : Bool := leChars a.toList b.toList

/-- Stable insertion into a list sorted by `le` (insert before the first
element the new one may precede). -/
def insertLe (le : α → α → Bool) (x : α) : List α → List α
  | [] => [x]
  | y :: ys => if le x y then x :: y :: ys else y :: insertLe le x ys

/-- Stable insertion sort by `le`: the model of Rust `sort_by`, which is a
stable sort ordered by the supplied comparator. -/
def sortLe (le : α → α → Bool) : List α → List α
  | [] => []
  | x :: xs => insertLe le x (sortLe le xs)

/-- Split a rendered path string into its components, dropping empty and
current-directory pieces as Rust `Path::components` does. -/
def componentsOfStr (s : String) : List String :=
  ((splitChar '/' s.toList).map String.mk).filter (fun c => !(c == "" || c == "."))

/-- Rust `Path::file_name` on a rendered path string. -/
def fileNameOfStr (s : String) : Option String :=
  match (componentsOfStr s).getLast? with
  | none => none
  | some c => if c = ".." then none else some c

/-- Rust `Path::extension` on a rendered path string. -/
def path_extension_str (p : String) : Option String :=
  (fileNameOfStr p).bind extOfName

/-- Model of Rust `str::starts_with`: the second string is a character-wise
prefix of the first. -/
def str_starts_with (s pre : String) : Bool :=
  pre.toList.isPrefixOf s.toList

/-- Embeds `get_backups_path`: `docs/PBS_Admin/Backups` as a rendered string,
creating the folder when absent (`createFails` makes that creation fail). -/
def get_backups_path (docsDir : Option String) (dirExists createFails : Bool)
    (createErr : String) : Except String String :=
  match docsDir with
  | none => .error "Could not find Documents directory"
  | some d =>
    if dirExists = false ∧ createFails = true then
      .error ("Failed to create backups folder: " ++ createErr)
    else
      .ok (d ++ "/PBS_Admin/Backups")

/-- Observable outcome of one `delete_backup_file` call: the returned value,
whether the backups folder was created as a side effect, and the path passed
to `remove_file` (none when no deletion was attempted). -/
structure DeleteOutcome where
  result : Except String String
  createdBackupsDir : Bool
  removedPath : Option String

/-- Embeds `delete_backup_file`: locate (and possibly create) the backups
folder, require the raw path string to start with the backups path string,
require the file name — when one exists — to carry the artifact prefix, and
only then delete. -/
def delete_backup_file (docsDir : Option String) (dirExists createFails : Bool)
    (createErr : String) (removeFails : Bool) (removeErr : String)
    (backup_path : String) : DeleteOutcome :=
  match get_backups_path docsDir dirExists createFails createErr with
  | .error e => { result := .error e, createdBackupsDir := false, removedPath := none }
  | .ok backups_path =>
    let created := !dirExists
    if str_starts_with backup_path backups_path = false then
      { result := .error "Cannot delete files outside the backups folder"
      , createdBackupsDir := created, removedPath := none }
    else
      let nameOk :=
        match fileNameOfStr backup_path with
        | some file_name => str_starts_with file_name "pbs-admin-backup-"
        | none => true
      if nameOk = false then
        { result := .error "Cannot delete non-backup files"
        , createdBackupsDir := created, removedPath := none }
      else if removeFails then
        { result := .error ("Failed to delete backup: " ++ removeErr)
        , createdBackupsDir := created, removedPath := some backup_path }
      else
        { result := .ok "Backup deleted successfully"
        , createdBackupsDir := created, removedPath := some backup_path }

/-- Containment as claim C5 words it: the path lies within the backups
sub-root, as a component-wise prefix relation on the two paths. Stated from
the claim, to be compared with the string-prefix check the code performs. -/
def within_backups_subroot (backups_path p : String) : Bool :=
  (componentsOfStr backups_path).isPrefixOf (componentsOfStr p)

/-- One listing entry as `list_database_backups` reports it. -/
structure BackupInfo where
  fileName : String
  filePath : String
  createdAt : String
  sizeBytes : Nat

deriving DecidableEq

/-- The per-entry body of the listing loop: keep a directory entry exactly
when its path carries the `db` extension and its file name carries the
artifact prefix, attaching size and creation-time metadata (absent metadata
degrades to size 0 and an empty time, as the `unwrap_or` calls do). -/
def mkBackupInfo (backups_path : String) (meta : String → Option (Nat × Option String))
    (name : String) : Option BackupInfo :=
  let path := backups_path ++ "/" ++ name
  if path_extension_str path = some "db" then
    match fileNameOfStr path with
    | some file_name =>
      if str_starts_with file_name "pbs-admin-backup-" then
        some { fileName := file_name
             , filePath := path
             , createdAt := ((meta path).bind Prod.snd).getD ""
             , sizeBytes := ((meta path).map Prod.fst).getD 0 }
      else none
    | none => none
  else none

/-- The descending-by-file-name order `sort_by` is called with
(`name_b.cmp(name_a)`). -/
def backupLeDesc (a b : BackupInfo) : Bool := strLe b.fileName a.fileName

/-- Embeds `list_database_backups`: locate (and possibly create) the backups
folder; when the directory can be read, process its readable entries
(`entries.flatten()` drops unreadable ones) through `mkBackupInfo`; when the
directory cannot be read, the `if let Ok` block is skipped and the collected
list stays empty; finally sort descending by file name. `readDir` models
`std::fs::read_dir`: either an error or the entries, each itself fallible. -/
def list_database_backups (docsDir : Option String) (dirExists createFails : Bool)
    (createErr : String) (readDir : Except String (List (Except String String)))
    (meta : String → Option (Nat × Option String)) : Except String (List BackupInfo) :=
  match get_backups_path docsDir dirExists createFails createErr with
  | .error e => .error e
  | .ok backups_path =>
    let entries : List String :=
      match readDir with
      | .ok es => es.filterMap Except.toOption
      | .error _ => []
    let backups := entries.filterMap (mkBackupInfo backups_path meta)
    .ok (sortLe backupLeDesc backups)

/-- The two directory entries of the C7 witness, in on-disk order: the
January artifact first, the June artifact second. -/
def esExample : List (Except String String) :=
  [.ok "pbs-admin-backup-2024-01-01-000000.db", .ok "pbs-admin-backup-2024-06-01-000000.db"]

/-- A metadata oracle with no information (sizes degrade to 0, times to the
empty string). -/
def metaNone : String → Option (Nat × Option String) := fun _ => none

/-- The standard base64 alphabet the encoder indexes into. -/
def b64Alphabet : List Char :=
  "ABCDEFGHIJKLMNOPQRSTUVWXYZabcdefghijklmnopqrstuvwxyz0123456789+/".toList

/-- One alphabet lookup `ALPHABET[i] as char` (every index the encoder
produces is below 64, so the default is never consulted). -/
def b64Char (i : Nat) : Char := b64Alphabet.getD i 'A'

/-- Embeds the `while i < data.len()` loop of `base64_encode` as recursion
on the byte list: each arm mirrors one shape of the final chunk, with the
absent bytes read as 0 and the corresponding output positions padded. -/
def base64_encode_go : List Nat → List Char
  | [] => []
  | [b0] =>
    [b64Char (b0 >>> 2), b64Char (((b0 &&& 0x03) <<< 4) ||| (0 >>> 4)), '=', '=']
  | [b0, b1] =>
    [b64Char (b0 >>> 2), b64Char (((b0 &&& 0x03) <<< 4) ||| (b1 >>> 4)),
     b64Char (((b1 &&& 0x0f) <<< 2) ||| (0 >>> 6)), '=']
  | b0 :: b1 :: b2 :: rest =>
    b64Char (b0 >>> 2) :: b64Char (((b0 &&& 0x03) <<< 4) ||| (b1 >>> 4)) ::
    b64Char (((b1 &&& 0x0f) <<< 2) ||| (b2 >>> 6)) :: b64Char (b2 &&& 0x3f) ::
    base64_encode_go rest

/-- Embeds `base64_encode` (bytes as naturals below 256). -/
def base64_encode (data : List Nat) : String := String.mk (base64_encode_go data)

/-- Modelled from the spec side of claim C10: the value of one alphabet
character under a reference decoder — its index in the standard alphabet. -/
def b64DecodeChar (c : Char) : Option Nat := b64Alphabet.findIdx? (fun x => x = c)

/-- Modelled from the spec side of claim C10: a reference base64 decoder
over the standard alphabet with trailing `=` padding, consuming four
characters per three bytes. -/
def base64_decode_go : List Char → Option (List Nat)
  | [] => some []
  | c0 :: c1 :: c2 :: c3 :: rest =>
    match b64DecodeChar c0, b64DecodeChar c1 with
    | some s0, some s1 =>
      if c2 = '=' ∧ c3 = '=' ∧ rest = [] then
        some [s0 * 4 + s1 / 16]
      else if c3 = '=' ∧ rest = [] then
        match b64DecodeChar c2 with
        | some s2 => some [s0 * 4 + s1 / 16, (s1 % 16) * 16 + s2 / 4]
        | none => none
      else
        match b64DecodeChar c2, b64DecodeChar c3, base64_decode_go rest with
        | some s2, some s3, some tl =>
          some ((s0 * 4 + s1 / 16) :: ((s1 % 16) * 16 + s2 / 4) :: ((s2 % 4) * 64 + s3) :: tl)
        | _, _, _ => none
    | _, _ => none
  | _ => none

/-- The reference decoder on strings. -/
def base64_decode (s : String) : Option (List Nat) := base64_decode_go s.toList

/-- C1: once the candidate canonical form of a caller-supplied path is
outside both permitted roots (component-wise, via the canonicalized base and
the temp scratch root), validation fails with the access-denied error, for
the shared check and for both the read and the write entry points; the
containment test being `List.isPrefixOf` on components, no lexical property
of the original path can rescue it. -/
theorem C1_traversal_outside_roots_denied (fs : FsModel) (path cp docs : FPath)
    (hres : resolve_candidate fs path = .ok cp)
    (hdocs : fs.docDir = some docs)
    (hbase : ((fs.canonicalize (docs ++ ["PBS_Admin"])).getD (docs ++ ["PBS_Admin"])).isPrefixOf cp = false)
    (htemp : (fs.tempDir ++ ["PBS_Admin"]).isPrefixOf cp = false) :
    validate_path_within_pbs_admin fs path = .error (access_denied_msg path)
      ∧ validate_write_path fs path = .error (access_denied_msg path)
      ∧ (fs.pathExists path = true →
          validate_read_path fs path = .error (access_denied_msg path)) := by
  have hv : validate_path_within_pbs_admin fs path = .error (access_denied_msg path) := by
    unfold validate_path_within_pbs_admin
    rw [hres]
    unfold get_pbs_admin_base_path
    rw [hdocs]
    simp only [hbase, htemp, Bool.or_self, Bool.false_eq_true, if_false]
  refine ⟨hv, hv, fun hex => ?_⟩
  unfold validate_read_path
  rw [hex]
  simpa using hv

/-- Witness for C1 at the sibling-directory input: `home/PBS_Admin2/f` is a
string-prefix extension of the base but is rejected, for the shared check
and both intents. -/
theorem C1_traversal_outside_roots_denied_witness :
    resolve_candidate fsSibling ["home", "PBS_Admin2", "f"] = .ok ["home", "PBS_Admin2", "f"]
      ∧ (validate_path_within_pbs_admin fsSibling ["home", "PBS_Admin2", "f"]
            = .error (access_denied_msg ["home", "PBS_Admin2", "f"])
          ∧ validate_write_path fsSibling ["home", "PBS_Admin2", "f"]
            = .error (access_denied_msg ["home", "PBS_Admin2", "f"])
          ∧ (fsSibling.pathExists ["home", "PBS_Admin2", "f"] = true →
              validate_read_path fsSibling ["home", "PBS_Admin2", "f"]
                = .error (access_denied_msg ["home", "PBS_Admin2", "f"]))) :=
  ⟨by rfl,
   C1_traversal_outside_roots_denied fsSibling ["home", "PBS_Admin2", "f"]
     ["home", "PBS_Admin2", "f"] ["home"] (by rfl) (by rfl) (by decide) (by decide)⟩

/-- C9: validating a path that canonicalizes to itself (already canonical,
already existing) and already lies inside a permitted root, as the code
checks containment, returns that same path. -/
theorem C9_validate_idempotent (fs : FsModel) (p docs : FPath)
    (hcanon : fs.canonicalize p = some p)
    (hdocs : fs.docDir = some docs)
    (hperm : ((fs.canonicalize (docs ++ ["PBS_Admin"])).getD (docs ++ ["PBS_Admin"])).isPrefixOf p = true
        ∨ (fs.tempDir ++ ["PBS_Admin"]).isPrefixOf p = true) :
    validate_path_within_pbs_admin fs p = .ok p := by
  unfold validate_path_within_pbs_admin resolve_candidate
  rw [hcanon]
  unfold get_pbs_admin_base_path
  rw [hdocs]
  rcases hperm with h | h <;> simp [h]

/-- Witness for C9 at a concrete already-canonical permitted path. -/
theorem C9_validate_idempotent_witness :
    fsIdem.canonicalize ["home", "PBS_Admin", "x"] = some ["home", "PBS_Admin", "x"]
      ∧ validate_path_within_pbs_admin fsIdem ["home", "PBS_Admin", "x"]
          = .ok ["home", "PBS_Admin", "x"] :=
  ⟨by decide,
   C9_validate_idempotent fsIdem ["home", "PBS_Admin", "x"] ["home"]
     (by decide) (by decide) (Or.inl (by decide))⟩

/-- Counterexample to C6: the code never computes the canonical form of the
temp scratch root. In a model where that root exists and canonicalizes to a
different location, a path under the canonical temp root is rejected by the
code, while the check the claim describes (canonicalize every root before
the containment test) accepts it. -/
theorem C6_counterexample :
    validate_path_within_pbs_admin fsTempLink ["realtmp", "PBS_Admin", "f"]
        = .error (access_denied_msg ["realtmp", "PBS_Admin", "f"])
      ∧ validate_spec_canonical_roots fsTempLink ["realtmp", "PBS_Admin", "f"]
        = .ok ["realtmp", "PBS_Admin", "f"] := by
  constructor <;> rfl

/-- C6 as amended: before the containment check the code computes the
canonical form only of the Documents/PBS_Admin base (falling back to the
non-canonical form when it does not exist); the temp scratch root enters
the check in its non-canonical form. The theorem characterizes acceptance
exactly by those two comparands. -/
theorem C6_amended_only_base_canonicalized (fs : FsModel) (path cp docs : FPath)
    (hres : resolve_candidate fs path = .ok cp)
    (hdocs : fs.docDir = some docs) :
    validate_path_within_pbs_admin fs path = .ok cp
      ↔ (((fs.canonicalize (docs ++ ["PBS_Admin"])).getD (docs ++ ["PBS_Admin"])).isPrefixOf cp = true
          ∨ (fs.tempDir ++ ["PBS_Admin"]).isPrefixOf cp = true) := by
  unfold validate_path_within_pbs_admin
  rw [hres]
  unfold get_pbs_admin_base_path
  rw [hdocs]
  constructor
  · intro h
    by_cases hb : ((fs.canonicalize (docs ++ ["PBS_Admin"])).getD (docs ++ ["PBS_Admin"])).isPrefixOf cp = true
    · exact Or.inl hb
    · by_cases ht : (fs.tempDir ++ ["PBS_Admin"]).isPrefixOf cp = true
      · exact Or.inr ht
      · simp only [Bool.not_eq_true] at hb ht
        simp [hb, ht] at h
  · rintro (h | h) <;> simp [h]

/-- Witness for the amended C6, at a model whose temp root is a symlink: a
path under the raw temp root is accepted through the non-canonical
comparand. -/
theorem C6_amended_only_base_canonicalized_witness :
    resolve_candidate fsTempLink ["tmp", "PBS_Admin"] = .ok ["realtmp", "PBS_Admin"]
      ∧ (validate_path_within_pbs_admin fsTempLink ["tmp", "PBS_Admin"]
            = .ok ["realtmp", "PBS_Admin"]
          ↔ (((fsTempLink.canonicalize (["docs"] ++ ["PBS_Admin"])).getD (["docs"] ++ ["PBS_Admin"])).isPrefixOf ["realtmp", "PBS_Admin"] = true
              ∨ (fsTempLink.tempDir ++ ["PBS_Admin"]).isPrefixOf ["realtmp", "PBS_Admin"] = true)) :=
  ⟨by rfl,
   C6_amended_only_base_canonicalized fsTempLink ["tmp", "PBS_Admin"]
     ["realtmp", "PBS_Admin"] ["docs"] (by rfl) (by rfl)⟩

theorem with_pre_restore_ext_dbP (docs : FPath) :
    with_pre_restore_ext (dbP docs) = safetyP docs := by
  unfold with_pre_restore_ext dbP safetyP
  have h : docs ++ ["PBS_Admin", "data", "pbs_admin.db"]
      = (docs ++ ["PBS_Admin", "data"]) ++ ["pbs_admin.db"] := by
    simp
  rw [h, List.dropLast_concat]
  simp

theorem safetyP_ne_dbP (docs : FPath) : safetyP docs ≠ dbP docs := by
  unfold safetyP dbP
  intro h
  have := List.append_cancel_left h
  simp at this

theorem getLast?_safetyP (docs : FPath) :
    (safetyP docs).getLast? = some "pbs_admin.db.pre-restore-backup" := by
  unfold safetyP
  have h : docs ++ ["PBS_Admin", "data", "pbs_admin.db.pre-restore-backup"]
      = (docs ++ ["PBS_Admin", "data"]) ++ ["pbs_admin.db.pre-restore-backup"] := by
    simp
  rw [h, List.getLast?_concat]

theorem ext_safetyP (docs : FPath) :
    path_extension (safetyP docs) = some "pre-restore-backup" := by
  unfold path_extension fileNameOf
  rw [getLast?_safetyP]
  decide

theorem backup_ne_safetyP (docs : FPath) (bp : FPath)
    (h : path_extension bp = some "db") : bp ≠ safetyP docs := by
  intro he
  rw [he, ext_safetyP] at h
  simp at h

/-- Counterexample to C2: `restore_database_backup` checks only existence
and the `db` extension, so it accepts the database's own path as the
artifact, and since `std::fs::copy` truncates the destination before
reading, that fault-free self-restore empties the Database File to zero
bytes yet reports success — the final content is neither the pre-restore
content (bytes 1,2,3) nor the artifact's pre-call content (the same bytes). -/
theorem C2_self_restore_counterexample :
    (restore_database_backup (some docs0) faultsNone fs0 (dbP docs0)).1
        = .ok "Database restored successfully. Please restart the application."
      ∧ (restore_database_backup (some docs0) faultsNone fs0 (dbP docs0)).2 (dbP docs0)
        = some []
      ∧ fs0 (dbP docs0) = some [1, 2, 3] := by
  refine ⟨by rfl, by decide, by decide⟩

/-- C2 as amended: for every restore call whose artifact path is not the
Database File's own path, the Database File afterwards holds either the
pre-restore content or the artifact's content, except in the single case
where the overwrite failed and the rollback copy also failed, and then the
call returns an error to the caller rather than reporting success. (At the
aliasing input the call instead truncates the database and reports
success, as the counterexample shows.) -/
theorem C2_restore_invariant_nonaliasing (docs : FPath) (f : RestoreFaults) (fs : Fs)
    (backup_path : FPath) (pre : Content)
    (hdb : fs (dbP docs) = some pre)
    (hal : backup_path ≠ dbP docs) :
    (∃ c, (restore_database_backup (some docs) f fs backup_path).2 (dbP docs) = some c
        ∧ (c = pre ∨ fs backup_path = some c))
      ∨ (f.overwriteFails = true ∧ f.rollbackFails = true
          ∧ ∃ e, (restore_database_backup (some docs) f fs backup_path).1 = .error e) := by
  have hdne : dbP docs ≠ safetyP docs := fun h => safetyP_ne_dbP docs h.symm
  have hsne : safetyP docs ≠ dbP docs := safetyP_ne_dbP docs
  unfold restore_database_backup get_database_path_internal
  by_cases hbp : fs backup_path = none
  · exact Or.inl ⟨pre, by simp [hbp, hdb], Or.inl rfl⟩
  · by_cases hext : path_extension backup_path = some "db"
    · have hbne : backup_path ≠ safetyP docs := backup_ne_safetyP docs backup_path hext
      by_cases hsc : f.safetyCopyFails
      · refine Or.inl ⟨pre, ?_, Or.inl rfl⟩
        simp [hbp, hdb, hext, hsc, with_pre_restore_ext_dbP, fsUpdate, hdne]
      · by_cases hov : f.overwriteFails = false
        · obtain ⟨c, hc⟩ : ∃ c, fs backup_path = some c :=
            Option.ne_none_iff_exists'.mp hbp
          refine Or.inl ⟨c, ?_, Or.inr hc⟩
          by_cases hrm : f.removeSafetyFails
          · simp [hbp, hdb, hext, hsc, hov, hrm, with_pre_restore_ext_dbP, fsUpdate,
              copyResult, hdne, hbne, hal, hc]
          · simp [hbp, hdb, hext, hsc, hov, hrm, with_pre_restore_ext_dbP, fsUpdate,
              copyResult, hdne, hbne, hal, hc]
        · by_cases hrb : f.rollbackFails = false
          · refine Or.inl ⟨pre, ?_, Or.inl rfl⟩
            simp [hbp, hdb, hext, hsc, hov, hrb, with_pre_restore_ext_dbP, fsUpdate,
              copyResult, hdne, hsne]
          · refine Or.inr ⟨by simpa using hov, by simpa using hrb, ?_⟩
            refine ⟨"Failed to restore database: " ++ f.overwriteErr ++ ". Original database preserved.", ?_⟩
            simp [hbp, hdb, hext, hsc, hov, hrb, with_pre_restore_ext_dbP]
    · exact Or.inl ⟨pre, by simp [hbp, hdb, hext], Or.inl rfl⟩

/-- Witness for the amended C2 at the double-fault schedule on a
non-aliasing artifact: the call surfaces an error rather than reporting
success. -/
theorem C2_restore_invariant_nonaliasing_witness :
    (fs0 (dbP docs0) = some [1, 2, 3] ∧ bp0 ≠ dbP docs0)
      ∧ ((∃ c, (restore_database_backup (some docs0) faultsBoth fs0 bp0).2 (dbP docs0) = some c
            ∧ (c = [1, 2, 3] ∨ fs0 bp0 = some c))
          ∨ (faultsBoth.overwriteFails = true ∧ faultsBoth.rollbackFails = true
              ∧ ∃ e, (restore_database_backup (some docs0) faultsBoth fs0 bp0).1 = .error e)) :=
  ⟨⟨by decide, by decide⟩,
   C2_restore_invariant_nonaliasing docs0 faultsBoth fs0 bp0 [1, 2, 3] (by decide) (by decide)⟩

/-- C3: the code discards the result of the rollback copy, so when both the
overwrite and the rollback fail it reports the very same error as when the
rollback succeeds — the message even asserts the original database was
preserved while the database actually holds the truncated overwrite
residue; no distinct unrecoverable error naming the Safety Copy exists. The
Safety Copy itself does survive on disk. -/
theorem C3_no_unrecoverable_error_reported :
    (restore_database_backup (some docs0) faultsBoth fs0 bp0).1
        = .error "Failed to restore database: disk full. Original database preserved."
      ∧ (restore_database_backup (some docs0) faultsBoth fs0 bp0).1
        = (restore_database_backup (some docs0) faultsRollbackOk fs0 bp0).1
      ∧ (restore_database_backup (some docs0) faultsBoth fs0 bp0).2 (safetyP docs0)
        = some [1, 2, 3]
      ∧ (restore_database_backup (some docs0) faultsBoth fs0 bp0).2 (dbP docs0)
        = some [9] := by
  refine ⟨by rfl, by rfl, by decide, by decide⟩

/-- C4: when the Safety Copy has been created and the overwrite step then
fails but the rollback succeeds, the Database File afterwards holds its
pre-restore bytes and the reported error is the restore-failed message; and
when the initial safety-copy step fails, the call aborts with the
backup-failed message and the Database File is untouched. -/
theorem C4_rollback_and_abort (docs : FPath) (f : RestoreFaults) (fs : Fs)
    (backup_path : FPath) (pre : Content)
    (hdb : fs (dbP docs) = some pre)
    (hbp : fs backup_path ≠ none)
    (hext : path_extension backup_path = some "db") :
    (f.safetyCopyFails = true →
        (restore_database_backup (some docs) f fs backup_path).1
            = .error ("Failed to create safety backup: " ++ f.safetyCopyErr)
          ∧ (restore_database_backup (some docs) f fs backup_path).2 (dbP docs) = some pre)
      ∧ (f.safetyCopyFails = false → f.overwriteFails = true → f.rollbackFails = false →
          (restore_database_backup (some docs) f fs backup_path).1
              = .error ("Failed to restore database: " ++ f.overwriteErr ++ ". Original database preserved.")
            ∧ (restore_database_backup (some docs) f fs backup_path).2 (dbP docs) = some pre) := by
  have hdne : dbP docs ≠ safetyP docs := fun h => safetyP_ne_dbP docs h.symm
  have hsne : safetyP docs ≠ dbP docs := safetyP_ne_dbP docs
  unfold restore_database_backup get_database_path_internal
  constructor
  · intro hsc
    constructor
    · simp [hbp, hdb, hext, hsc, with_pre_restore_ext_dbP]
    · simp [hbp, hdb, hext, hsc, with_pre_restore_ext_dbP, fsUpdate, hdne]
  · intro hsc hov hrb
    constructor
    · simp [hbp, hdb, hext, hsc, hov, hrb, with_pre_restore_ext_dbP]
    · simp [hbp, hdb, hext, hsc, hov, hrb, with_pre_restore_ext_dbP, fsUpdate,
        copyResult, hdne, hsne]

/-- Witness for C4 at the rollback-succeeds schedule and at the
safety-copy-fails schedule. -/
theorem C4_rollback_and_abort_witness :
    fs0 (dbP docs0) = some [1, 2, 3]
      ∧ ((faultsRollbackOk.safetyCopyFails = true →
            (restore_database_backup (some docs0) faultsRollbackOk fs0 bp0).1
                = .error ("Failed to create safety backup: " ++ faultsRollbackOk.safetyCopyErr)
              ∧ (restore_database_backup (some docs0) faultsRollbackOk fs0 bp0).2 (dbP docs0)
                = some [1, 2, 3])
          ∧ (faultsRollbackOk.safetyCopyFails = false → faultsRollbackOk.overwriteFails = true →
              faultsRollbackOk.rollbackFails = false →
              (restore_database_backup (some docs0) faultsRollbackOk fs0 bp0).1
                  = .error ("Failed to restore database: " ++ faultsRollbackOk.overwriteErr ++ ". Original database preserved.")
                ∧ (restore_database_backup (some docs0) faultsRollbackOk fs0 bp0).2 (dbP docs0)
                  = some [1, 2, 3]))
      ∧ ((faultsSafetyFail.safetyCopyFails = true →
            (restore_database_backup (some docs0) faultsSafetyFail fs0 bp0).1
                = .error ("Failed to create safety backup: " ++ faultsSafetyFail.safetyCopyErr)
              ∧ (restore_database_backup (some docs0) faultsSafetyFail fs0 bp0).2 (dbP docs0)
                = some [1, 2, 3])
          ∧ (faultsSafetyFail.safetyCopyFails = false → faultsSafetyFail.overwriteFails = true →
              faultsSafetyFail.rollbackFails = false →
              (restore_database_backup (some docs0) faultsSafetyFail fs0 bp0).1
                  = .error ("Failed to restore database: " ++ faultsSafetyFail.overwriteErr ++ ". Original database preserved.")
                ∧ (restore_database_backup (some docs0) faultsSafetyFail fs0 bp0).2 (dbP docs0)
                  = some [1, 2, 3])) :=
  ⟨by decide,
   C4_rollback_and_abort docs0 faultsRollbackOk fs0 bp0 [1, 2, 3]
     (by decide) (by decide) (by decide),
   C4_rollback_and_abort docs0 faultsSafetyFail fs0 bp0 [1, 2, 3]
     (by decide) (by decide) (by decide)⟩

theorem leChars_cons (a b : Char) (as bs : List Char) :
    leChars (a :: as) (b :: bs)
      = if a.toNat = b.toNat then leChars as bs else decide (a.toNat < b.toNat) := rfl

theorem leChars_total : ∀ as bs, leChars as bs = true ∨ leChars bs as = true
  | [], _ => Or.inl rfl
  | _ :: _, [] => Or.inr rfl
  | a :: as, b :: bs => by
    rw [leChars_cons, leChars_cons]
    by_cases h : a.toNat = b.toNat
    · have h' : b.toNat = a.toNat := h.symm
      rw [if_pos h, if_pos h']
      exact leChars_total as bs
    · have h' : ¬ b.toNat = a.toNat := fun e => h e.symm
      rw [if_neg h, if_neg h']
      rcases Nat.lt_or_ge a.toNat b.toNat with hlt | hge
      · exact Or.inl (by simpa using hlt)
      · have hgt : b.toNat < a.toNat := Nat.lt_of_le_of_ne hge h'
        exact Or.inr (by simpa using hgt)

theorem leChars_trans : ∀ as bs cs, leChars as bs = true → leChars bs cs = true →
    leChars as cs = true
  | [], _, _ => by intro _ _; rfl
  | a :: as, [], _ => by intro h _; simp [leChars] at h
  | a :: as, b :: bs, [] => by intro _ h; simp [leChars] at h
  | a :: as, b :: bs, c :: cs => by
    rw [leChars_cons, leChars_cons, leChars_cons]
    intro h1 h2
    by_cases hab : a.toNat = b.toNat
    · rw [if_pos hab] at h1
      by_cases hbc : b.toNat = c.toNat
      · rw [if_pos hbc] at h2
        rw [if_pos (hab.trans hbc)]
        exact leChars_trans as bs cs h1 h2
      · rw [if_neg hbc] at h2
        have h2' : b.toNat < c.toNat := by simpa using h2
        have hac : a.toNat < c.toNat := hab ▸ h2'
        rw [if_neg (Nat.ne_of_lt hac)]
        simpa using hac
    · rw [if_neg hab] at h1
      have h1' : a.toNat < b.toNat := by simpa using h1
      by_cases hbc : b.toNat = c.toNat
      · have hac : a.toNat < c.toNat := hbc ▸ h1'
        rw [if_neg (Nat.ne_of_lt hac)]
        simpa using hac
      · rw [if_neg hbc] at h2
        have h2' : b.toNat < c.toNat := by simpa using h2
        have hac : a.toNat < c.toNat := h1'.trans h2'
        rw [if_neg (Nat.ne_of_lt hac)]
        simpa using hac

theorem insertLe_cons (le : α → α → Bool) (x y : α) (ys : List α) :
    insertLe le x (y :: ys)
      = if le x y then x :: y :: ys else y :: insertLe le x ys := rfl

theorem mem_insertLe (le : α → α → Bool) (x : α) :
    ∀ (l : List α) (a : α), a ∈ insertLe le x l ↔ a = x ∨ a ∈ l
  | [], a => by simp [insertLe]
  | y :: ys, a => by
    rw [insertLe_cons]
    by_cases h : le x y = true
    · rw [if_pos h]
      simp only [List.mem_cons]
    · rw [if_neg h]
      simp only [List.mem_cons, mem_insertLe le x ys a]
      tauto

theorem mem_sortLe (le : α → α → Bool) :
    ∀ (l : List α) (a : α), a ∈ sortLe le l ↔ a ∈ l
  | [], a => by simp [sortLe]
  | x :: xs, a => by
    simp only [sortLe, mem_insertLe, mem_sortLe le xs a, List.mem_cons]

theorem pairwise_insertLe (le : α → α → Bool)
    (htot : ∀ a b, le a b = true ∨ le b a = true)
    (htr : ∀ a b c, le a b = true → le b c = true → le a c = true) (x : α) :
    ∀ (l : List α), l.Pairwise (fun a b => le a b = true) →
      (insertLe le x l).Pairwise (fun a b => le a b = true)
  | [], _ => by simp [insertLe]
  | y :: ys, h => by
    rcases List.pairwise_cons.mp h with ⟨hy, hys⟩
    rw [insertLe_cons]
    by_cases hxy : le x y = true
    · rw [if_pos hxy]
      refine List.pairwise_cons.mpr ⟨?_, h⟩
      intro z hz
      rcases List.mem_cons.mp hz with rfl | hz
      · exact hxy
      · exact htr x y z hxy (hy z hz)
    · have hyx : le y x = true := (htot x y).resolve_left hxy
      rw [if_neg hxy]
      refine List.pairwise_cons.mpr ⟨?_, pairwise_insertLe le htot htr x ys hys⟩
      intro z hz
      rcases (mem_insertLe le x ys z).mp hz with rfl | hz
      · exact hyx
      · exact hy z hz

theorem pairwise_sortLe (le : α → α → Bool)
    (htot : ∀ a b, le a b = true ∨ le b a = true)
    (htr : ∀ a b c, le a b = true → le b c = true → le a c = true) :
    ∀ (l : List α), (sortLe le l).Pairwise (fun a b => le a b = true)
  | [] => by simp [sortLe]
  | x :: xs => pairwise_insertLe le htot htr x (sortLe le xs) (pairwise_sortLe le htot htr xs)

/-- Counterexample to C5: the containment check is a string-prefix test on
the rendered path, so a file inside the sibling directory
`PBS_Admin/Backups_evil` — component-wise outside the backups sub-root — is
accepted and actually deleted. -/
theorem C5_counterexample :
    within_backups_subroot "/Users/u/Documents/PBS_Admin/Backups"
        "/Users/u/Documents/PBS_Admin/Backups_evil/pbs-admin-backup-1.db" = false
      ∧ (delete_backup_file (some "/Users/u/Documents") true false "" false ""
            "/Users/u/Documents/PBS_Admin/Backups_evil/pbs-admin-backup-1.db").removedPath
          = some "/Users/u/Documents/PBS_Admin/Backups_evil/pbs-admin-backup-1.db"
      ∧ (delete_backup_file (some "/Users/u/Documents") true false "" false ""
            "/Users/u/Documents/PBS_Admin/Backups_evil/pbs-admin-backup-1.db").result
          = .ok "Backup deleted successfully" := by
  refine ⟨by decide, by decide, by rfl⟩

/-- C5 as amended: deletion is refused, with no file removed, when the raw
path string does not start with the backups path string, or when the path
has a file-name component lacking the artifact prefix; the containment test
is a string-prefix test (so sibling directories extending the name
`Backups` also pass it), and the file-name test is skipped when the path
has no file-name component. -/
theorem C5_amended_checks (docsDir : Option String) (d : String)
    (dirExists createFails : Bool) (createErr removeErr : String)
    (removeFails : Bool) (bp : String)
    (hd : docsDir = some d)
    (hsetup : dirExists = true ∨ createFails = false) :
    (str_starts_with bp (d ++ "/PBS_Admin/Backups") = false →
        (delete_backup_file docsDir dirExists createFails createErr removeFails removeErr bp).result
            = .error "Cannot delete files outside the backups folder"
          ∧ (delete_backup_file docsDir dirExists createFails createErr removeFails removeErr bp).removedPath
            = none)
      ∧ (∀ n, fileNameOfStr bp = some n → str_starts_with n "pbs-admin-backup-" = false →
          str_starts_with bp (d ++ "/PBS_Admin/Backups") = true →
          (delete_backup_file docsDir dirExists createFails createErr removeFails removeErr bp).result
              = .error "Cannot delete non-backup files"
            ∧ (delete_backup_file docsDir dirExists createFails createErr removeFails removeErr bp).removedPath
              = none) := by
  have hgb : get_backups_path docsDir dirExists createFails createErr
      = .ok (d ++ "/PBS_Admin/Backups") := by
    unfold get_backups_path
    rw [hd]
    rcases hsetup with h | h <;> simp [h]
  constructor
  · intro hout
    unfold delete_backup_file
    rw [hgb]
    simp [hout]
  · intro n hn hpre hin
    unfold delete_backup_file
    rw [hgb]
    simp [hin, hn, hpre]

/-- Witness for the amended C5: a file directly inside the backups folder
whose name is not an artifact name is refused with nothing removed. -/
theorem C5_amended_checks_witness :
    (str_starts_with "/Users/u/Documents/PBS_Admin/Backups/notes.txt"
          ("/Users/u/Documents" ++ "/PBS_Admin/Backups") = false →
        (delete_backup_file (some "/Users/u/Documents") true false "" false ""
              "/Users/u/Documents/PBS_Admin/Backups/notes.txt").result
            = .error "Cannot delete files outside the backups folder"
          ∧ (delete_backup_file (some "/Users/u/Documents") true false "" false ""
              "/Users/u/Documents/PBS_Admin/Backups/notes.txt").removedPath
            = none)
      ∧ (∀ n, fileNameOfStr "/Users/u/Documents/PBS_Admin/Backups/notes.txt" = some n →
          str_starts_with n "pbs-admin-backup-" = false →
          str_starts_with "/Users/u/Documents/PBS_Admin/Backups/notes.txt"
              ("/Users/u/Documents" ++ "/PBS_Admin/Backups") = true →
          (delete_backup_file (some "/Users/u/Documents") true false "" false ""
                "/Users/u/Documents/PBS_Admin/Backups/notes.txt").result
              = .error "Cannot delete non-backup files"
            ∧ (delete_backup_file (some "/Users/u/Documents") true false "" false ""
                "/Users/u/Documents/PBS_Admin/Backups/notes.txt").removedPath
              = none) :=
  C5_amended_checks (some "/Users/u/Documents") "/Users/u/Documents" true false "" ""
    false "/Users/u/Documents/PBS_Admin/Backups/notes.txt" rfl (Or.inl rfl)

theorem except_toOption_eq_some (r : Except String String) (n : String) :
    r.toOption = some n ↔ r = .ok n := by
  cases r <;> simp [Except.toOption]

/-- C7: the listing succeeds and returns exactly the images under
`mkBackupInfo` (the `db`-extension and artifact-prefix filter) of the
readable directory entries, arranged so that each entry's file name is
greater or equal (in the byte order of `String::cmp`, which on the
fixed-width zero-padded timestamps is chronological order) than every later
entry's — newest first. -/
theorem C7_list_exact_and_sorted (docsDir : Option String) (d : String)
    (dirExists createFails : Bool) (createErr : String)
    (readDir : Except String (List (Except String String)))
    (meta : String → Option (Nat × Option String))
    (es : List (Except String String))
    (hd : docsDir = some d)
    (hsetup : dirExists = true ∨ createFails = false)
    (hread : readDir = .ok es) :
    ∃ l, list_database_backups docsDir dirExists createFails createErr readDir meta = .ok l
      ∧ (∀ x, x ∈ l ↔ ∃ name, Except.ok name ∈ es
            ∧ mkBackupInfo (d ++ "/PBS_Admin/Backups") meta name = some x)
      ∧ l.Pairwise (fun a b => strLe b.fileName a.fileName = true) := by
  have hgb : get_backups_path docsDir dirExists createFails createErr
      = .ok (d ++ "/PBS_Admin/Backups") := by
    unfold get_backups_path
    rw [hd]
    rcases hsetup with h | h <;> simp [h]
  refine ⟨sortLe backupLeDesc
      ((es.filterMap Except.toOption).filterMap (mkBackupInfo (d ++ "/PBS_Admin/Backups") meta)),
    ?_, ?_, ?_⟩
  · unfold list_database_backups
    rw [hgb, hread]
  · intro x
    rw [mem_sortLe, List.mem_filterMap]
    constructor
    · rintro ⟨name, hname, hmk⟩
      rcases List.mem_filterMap.mp hname with ⟨r, hr, hro⟩
      exact ⟨name, ((except_toOption_eq_some r name).mp hro) ▸ hr, hmk⟩
    · rintro ⟨name, hname, hmk⟩
      refine ⟨name, List.mem_filterMap.mpr ⟨.ok name, hname, ?_⟩, hmk⟩
      exact (except_toOption_eq_some (.ok name) name).mpr rfl
  · exact pairwise_sortLe backupLeDesc
      (fun a b => leChars_total a.fileName.toList b.fileName.toList |>.symm)
      (fun a b c h1 h2 => leChars_trans c.fileName.toList b.fileName.toList a.fileName.toList h2 h1)
      _

/-- Witness for C7 at the two 2024 artifacts: the June artifact is returned
before the January one, and the general characterization holds there. -/
theorem C7_list_exact_and_sorted_witness :
    list_database_backups (some "/d") true false "" (.ok esExample) metaNone
        = .ok [ { fileName := "pbs-admin-backup-2024-06-01-000000.db"
                , filePath := "/d/PBS_Admin/Backups/pbs-admin-backup-2024-06-01-000000.db"
                , createdAt := "", sizeBytes := 0 }
              , { fileName := "pbs-admin-backup-2024-01-01-000000.db"
                , filePath := "/d/PBS_Admin/Backups/pbs-admin-backup-2024-01-01-000000.db"
                , createdAt := "", sizeBytes := 0 } ]
      ∧ (∃ l, list_database_backups (some "/d") true false "" (.ok esExample) metaNone = .ok l
          ∧ (∀ x, x ∈ l ↔ ∃ name, Except.ok name ∈ esExample
                ∧ mkBackupInfo ("/d" ++ "/PBS_Admin/Backups") metaNone name = some x)
          ∧ l.Pairwise (fun a b => strLe b.fileName a.fileName = true)) :=
  ⟨by rfl,
   C7_list_exact_and_sorted (some "/d") "/d" true false "" (.ok esExample) metaNone esExample
     rfl (Or.inl rfl) rfl⟩

/-- Counterexample to C8: when the backups directory itself cannot be
opened, the `if let Ok(entries)` block is skipped and the call still
succeeds with an empty listing — it does not fail. -/
theorem C8_counterexample :
    list_database_backups (some "/d") true false "" (.error "permission denied") metaNone
      = .ok [] := by
  rfl

/-- C8 as amended: the listing fails open to an empty result both when the
backups directory itself cannot be opened and entry-by-entry when a single
directory entry is unreadable (an unreadable entry is simply skipped); the
whole call fails only before reading, when the Documents folder is missing
or the backups folder cannot be created. -/
theorem C8_amended_fails_open (docsDir : Option String) (d : String)
    (dirExists createFails : Bool) (createErr : String)
    (meta : String → Option (Nat × Option String))
    (hd : docsDir = some d)
    (hsetup : dirExists = true ∨ createFails = false) :
    (∀ e, list_database_backups docsDir dirExists createFails createErr (.error e) meta = .ok [])
      ∧ (∀ e es, list_database_backups docsDir dirExists createFails createErr (.ok (.error e :: es)) meta
          = list_database_backups docsDir dirExists createFails createErr (.ok es) meta) := by
  have hgb : get_backups_path docsDir dirExists createFails createErr
      = .ok (d ++ "/PBS_Admin/Backups") := by
    unfold get_backups_path
    rw [hd]
    rcases hsetup with h | h <;> simp [h]
  constructor
  · intro e
    unfold list_database_backups
    rw [hgb]
    rfl
  · intro e es
    unfold list_database_backups
    rw [hgb]
    simp [Except.toOption]

/-- Witness for the amended C8 at concrete inputs: an unreadable directory
yields the empty success, and one unreadable entry in front of the two 2024
artifacts does not change the listing. -/
theorem C8_amended_fails_open_witness :
    (∀ e, list_database_backups (some "/d") true false "" (.error e) metaNone = .ok [])
      ∧ (∀ e es, list_database_backups (some "/d") true false "" (.ok (.error e :: es)) metaNone
          = list_database_backups (some "/d") true false "" (.ok es) metaNone) :=
  C8_amended_fails_open (some "/d") "/d" true false "" metaNone rfl (Or.inl rfl)

theorem b64_roundtrip_char : ∀ k < 64, b64DecodeChar (b64Char k) = some k := by decide

theorem b64Char_ne_pad (i : Nat) : b64Char i ≠ '=' := by
  by_cases h : i < 64
  · exact (by decide : ∀ j < 64, b64Char j ≠ '=') i h
  · have hlen : b64Alphabet.length ≤ i := by
      have : b64Alphabet.length = 64 := by decide
      omega
    unfold b64Char
    rw [List.getD_eq_default _ _ hlen]
    decide

theorem and3_mod : ∀ b < 256, b &&& 3 = b % 4 := by decide

theorem and15_mod : ∀ b < 256, b &&& 15 = b % 16 := by decide

theorem and63_mod : ∀ b < 256, b &&& 63 = b % 64 := by decide

theorem shr2_div : ∀ b < 256, b >>> 2 = b / 4 := by decide

theorem shr4_div : ∀ b < 256, b >>> 4 = b / 16 := by decide

theorem shr6_div : ∀ b < 256, b >>> 6 = b / 64 := by decide

theorem shl4_or : ∀ x < 4, ∀ y < 16, (x <<< 4) ||| y = 16 * x + y := by decide

theorem shl2_or : ∀ x < 16, ∀ y < 4, (x <<< 2) ||| y = 4 * x + y := by decide

/-- Arithmetic of one three-byte chunk: the four sextet expressions the
encoder computes are below 64, and the three byte expressions the decoder
computes from them recover the original bytes. -/
theorem b64_sextets (b0 b1 b2 : Nat) (h0 : b0 < 256) (h1 : b1 < 256) (h2 : b2 < 256) :
    (b0 >>> 2) < 64
      ∧ (((b0 &&& 3) <<< 4) ||| (b1 >>> 4)) < 64
      ∧ (((b1 &&& 15) <<< 2) ||| (b2 >>> 6)) < 64
      ∧ (b2 &&& 63) < 64
      ∧ (b0 >>> 2) * 4 + ((((b0 &&& 3) <<< 4) ||| (b1 >>> 4))) / 16 = b0
      ∧ ((((b0 &&& 3) <<< 4) ||| (b1 >>> 4)) % 16) * 16
          + ((((b1 &&& 15) <<< 2) ||| (b2 >>> 6))) / 4 = b1
      ∧ (((((b1 &&& 15) <<< 2) ||| (b2 >>> 6))) % 4) * 64 + (b2 &&& 63) = b2 := by
  rw [and3_mod b0 h0, and15_mod b1 h1, and63_mod b2 h2,
      shr2_div b0 h0, shr4_div b1 h1, shr6_div b2 h2,
      shl4_or (b0 % 4) (Nat.mod_lt _ (by omega)) (b1 / 16) (by omega),
      shl2_or (b1 % 16) (Nat.mod_lt _ (by omega)) (b2 / 64) (by omega)]
  omega

theorem encode_go_length : ∀ data : List Nat,
    (base64_encode_go data).length = 4 * ((data.length + 2) / 3)
  | [] => rfl
  | [_] => by norm_num [base64_encode_go]
  | [_, _] => by norm_num [base64_encode_go]
  | b0 :: b1 :: b2 :: rest => by
    have ih := encode_go_length rest
    simp only [base64_encode_go, List.length_cons, ih]
    omega

theorem encode_go_pad : ∀ data : List Nat,
    '=' ∈ base64_encode_go data ↔ data.length % 3 ≠ 0
  | [] => by simp [base64_encode_go]
  | [b0] => by simp [base64_encode_go]
  | [b0, b1] => by simp [base64_encode_go]
  | b0 :: b1 :: b2 :: rest => by
    have ih := encode_go_pad rest
    have hm : (rest.length + 3) % 3 = rest.length % 3 := by omega
    simp only [base64_encode_go, List.mem_cons, List.length_cons]
    constructor
    · rintro (h | h | h | h | h)
      · exact absurd h.symm (b64Char_ne_pad _)
      · exact absurd h.symm (b64Char_ne_pad _)
      · exact absurd h.symm (b64Char_ne_pad _)
      · exact absurd h.symm (b64Char_ne_pad _)
      · intro hz
        exact (ih.mp h) (by omega)
    · intro hz
      refine Or.inr (Or.inr (Or.inr (Or.inr (ih.mpr ?_))))
      omega

theorem decode_encode_go : ∀ data : List Nat, (∀ b ∈ data, b < 256) →
    base64_decode_go (base64_encode_go data) = some data
  | [], _ => rfl
  | [b0], h => by
    have hb0 : b0 < 256 := h b0 (by simp)
    obtain ⟨l0, l1, -, -, e0, -, -⟩ :=
      b64_sextets b0 0 0 hb0 (by omega) (by omega)
    have e0' : b0 >>> 2 * 4 + ((b0 &&& 3) <<< 4) / 16 = b0 := by simpa using e0
    show base64_decode_go
        [b64Char (b0 >>> 2), b64Char (((b0 &&& 3) <<< 4) ||| (0 >>> 4)), '=', '='] = some [b0]
    unfold base64_decode_go
    rw [b64_roundtrip_char _ l0, b64_roundtrip_char _ l1]
    simp [e0']
  | [b0, b1], h => by
    have hb0 : b0 < 256 := h b0 (by simp)
    have hb1 : b1 < 256 := h b1 (by simp)
    obtain ⟨l0, l1, l2, -, e0, e1, -⟩ :=
      b64_sextets b0 b1 0 hb0 hb1 (by omega)
    have l2' : (b1 &&& 15) <<< 2 < 64 := by simpa using l2
    have e1' : ((b0 &&& 3) <<< 4 ||| b1 >>> 4) % 16 * 16 + ((b1 &&& 15) <<< 2) / 4 = b1 := by
      simpa using e1
    have hne2 := b64Char_ne_pad ((b1 &&& 15) <<< 2)
    show base64_decode_go
        [b64Char (b0 >>> 2), b64Char (((b0 &&& 3) <<< 4) ||| (b1 >>> 4)),
         b64Char (((b1 &&& 15) <<< 2) ||| (0 >>> 6)), '='] = some [b0, b1]
    unfold base64_decode_go
    rw [b64_roundtrip_char _ l0, b64_roundtrip_char _ l1]
    simp [hne2, b64_roundtrip_char _ l2', e0, e1']
  | b0 :: b1 :: b2 :: rest, h => by
    have hb0 : b0 < 256 := h b0 (by simp)
    have hb1 : b1 < 256 := h b1 (by simp)
    have hb2 : b2 < 256 := h b2 (by simp)
    have hrest : ∀ b ∈ rest, b < 256 := fun b hb => h b (by simp [hb])
    obtain ⟨l0, l1, l2, l3, e0, e1, e2⟩ := b64_sextets b0 b1 b2 hb0 hb1 hb2
    have ih := decode_encode_go rest hrest
    have hne2 := b64Char_ne_pad (((b1 &&& 15) <<< 2) ||| (b2 >>> 6))
    have hne3 := b64Char_ne_pad (b2 &&& 63)
    show base64_decode_go
        (b64Char (b0 >>> 2) :: b64Char (((b0 &&& 3) <<< 4) ||| (b1 >>> 4)) ::
         b64Char (((b1 &&& 15) <<< 2) ||| (b2 >>> 6)) :: b64Char (b2 &&& 63) ::
         base64_encode_go rest) = some (b0 :: b1 :: b2 :: rest)
    unfold base64_decode_go
    rw [b64_roundtrip_char _ l0, b64_roundtrip_char _ l1]
    simp [hne2, hne3, b64_roundtrip_char _ l2, b64_roundtrip_char _ l3, ih, e0, e1, e2]

/-- C10: for every byte sequence, the encoder output has length
`4 * ceil(n/3)`, contains `=` padding exactly when `n` is not a multiple of
3, and the reference decoder recovers the original bytes. -/
theorem C10_base64_encode (data : List Nat) (h : ∀ b ∈ data, b < 256) :
    (base64_encode data).length = 4 * ((data.length + 2) / 3)
      ∧ (data.length % 3 ≠ 0 ↔ '=' ∈ (base64_encode data).toList)
      ∧ base64_decode (base64_encode data) = some data := by
  refine ⟨?_, ?_, ?_⟩
  · show (String.mk (base64_encode_go data)).length = _
    rw [String.length_mk, encode_go_length]
  · show _ ↔ '=' ∈ (String.mk (base64_encode_go data)).toList
    have ht : (String.mk (base64_encode_go data)).toList = base64_encode_go data := rfl
    rw [ht, encode_go_pad]
  · show base64_decode_go (String.mk (base64_encode_go data)).toList = some data
    have ht : (String.mk (base64_encode_go data)).toList = base64_encode_go data := rfl
    rw [ht]
    exact decode_encode_go data h

/-- Witness for C10 at the bytes of the string Man: encoding yields TWFu
(length 4, no padding) and decoding recovers the bytes. -/
theorem C10_base64_encode_witness :
    (∀ b ∈ [77, 97, 110], b < 256)
      ∧ ((base64_encode [77, 97, 110]).length = 4 * (([77, 97, 110].length + 2) / 3)
          ∧ ([77, 97, 110].length % 3 ≠ 0 ↔ '=' ∈ (base64_encode [77, 97, 110]).toList)
          ∧ base64_decode (base64_encode [77, 97, 110]) = some [77, 97, 110]) :=
  ⟨by decide, C10_base64_encode [77, 97, 110] (by decide)⟩

end PBSAdmin
